import Mathlib

/-!
Shallow embedding of `controllers/MainControllerInitializer/CommunicationManager.py`
(Webots-Controllers repository).

The Python class `CommunicationManager` owns an emitter, a receiver queue and a
robot object carrying a name, a known-robots list and a priority-ordered inbox
(`list_messages`). We embed the manager plus the observable parts of those
collaborators as one pure state record `CMState`; each Python method becomes a
state-transforming Lean function. Machine-level details embedded explicitly:

* Python `"{};{};{};{};{}".format(...)` joins the five fields with `;` after
  converting the counter with `str` (decimal, sign for negatives): `pyFormatInt`.
* Python `s.split(";")` on a single-character separator: `splitSemiList`
  (`"".split(";") == [""]`, empty segments kept).
* Python `int(s)`: strips surrounding whitespace, accepts an optional single
  sign followed by a nonempty digit string, raises `ValueError` otherwise —
  embedded as `parsePyInt : String → Option Int` (underscore digit grouping,
  which no claim exercises, is not modelled).
* A raised `ValueError` is embedded as the `Option String` component of the
  result (`some errorMessage`), keeping the state reached when it is raised,
  exactly as Python leaves the object after an exception propagates.
-/

namespace CommunicationManager

/-- Numeric value of a decimal digit character. -/
def digitVal (c : Char) : Nat := c.toNat - 48

/-- One step of accumulating a decimal number from its digits, most significant first. -/
def decStep (a : Nat) (c : Char) : Nat := 10 * a + digitVal c

/-- Digits of `n` in base 10, most significant first; `[]` for `n = 0`.
`fuel` bounds the recursion; `fuel ≥` number of digits suffices. -/
def natDigitsAux : Nat → Nat → List Char
  | 0, _ => []
  | fuel + 1, n => if n = 0 then [] else natDigitsAux fuel (n / 10) ++ [Char.ofNat (48 + n % 10)]

/-- Decimal digit characters of `n` (Python `str` of a non-negative int). -/
def natToDec (n : Nat) : List Char :=
  if n = 0 then [Char.ofNat 48] else natDigitsAux (n + 1) n

/-- Embeds Python `str` on an int: decimal digits, `-` sign for negatives. -/
def pyFormatInt (i : Int) : String :=
  if i < 0 then String.mk (Char.ofNat 45 :: natToDec i.natAbs) else String.mk (natToDec i.natAbs)

/-- A nonempty all-digit character list parsed as a Nat; `none` otherwise. -/
def parseDigits (l : List Char) : Option Nat :=
  if l = [] then none
  else if l.all Char.isDigit then some (l.foldl decStep 0) else none

/-- Drop surrounding whitespace, as Python `int` does before parsing. -/
def stripChars (l : List Char) : List Char :=
  ((l.dropWhile Char.isWhitespace).reverse.dropWhile Char.isWhitespace).reverse

/-- Optional single sign followed by digits, on the already-stripped characters. -/
def parsePyIntCore : List Char → Option Int
  | [] => none
  | c :: rest =>
    if c = '+' then (parseDigits rest).map (fun n => (n : Int))
    else if c = '-' then (parseDigits rest).map (fun n => -(n : Int))
    else (parseDigits (c :: rest)).map (fun n => (n : Int))

/-- Embeds Python `int(s)` for decimal strings: `some` value, or `none` where
Python raises `ValueError`. -/
def parsePyInt (s : String) : Option Int := parsePyIntCore (stripChars s.data)

/-- Embeds Python `s.split(";")`: every (possibly empty) segment between `;`
occurrences, in order; the empty string yields `[[]]`. -/
def splitSemiList : List Char → List (List Char)
  | [] => [[]]
  | c :: cs =>
    if c = ';' then [] :: splitSemiList cs
    else
      match splitSemiList cs with
      | [] => [[c]]
      | p :: ps => (c :: p) :: ps

/-- `split(";")` on strings. -/
def pySplitSemi (s : String) : List String := (splitSemiList s.data).map String.mk

/-- The Python `Message(id_sender, message_type, send_counter, payload, recipient)`
value (external class; its constructor stores the five fields). `message_type`
is kept in its wire string form, as `receive_message` does; `str` applied to it
by the encoder and comparator is then the identity. -/
structure Message where
  id_sender : String
  message_type : String
  send_counter : Int
  payload : String
  recipient : String
deriving DecidableEq

/-- `self.max_send_counter = 5` set in `__init__`. -/
def max_send_counter : Int := 5

/-- Observable state of one `CommunicationManager` and its robot: the robot's
name (`robot.getName()`), its `known_robots`, the frames pushed through the
emitter so far, the receiver's pending queue, the robot's `list_messages`
inbox, and the number of `robot.step` calls taken (the host clock in ticks). -/
structure CMState where
  name : String
  known_robots : List String
  emitted : List String
  queue : List String
  list_messages : List Message
  clock : Nat
deriving DecidableEq

/-- The wire frame built by `send_message`:
`"{};{};{};{};{}".format(msg.id_sender, msg.message_type, msg.send_counter+1, msg.payload, msg.recipient)`. -/
def encodeFrame (m : Message) : String :=
  m.id_sender ++ ";" ++ m.message_type ++ ";" ++ pyFormatInt (m.send_counter + 1)
    ++ ";" ++ m.payload ++ ";" ++ m.recipient

/-- `send_message`: emit the encoded frame, then `self.robot.step(self.time_step)`
(one tick). The caller's `Message` value is only read, never written. -/
def send_message (st : CMState) (msg : Message) : CMState :=
  { st with emitted := st.emitted ++ [encodeFrame msg], clock := st.clock + 1 }

/-- `send_message_all`: one `send_message` per entry of `known_robots`, in list
order, with that entry as recipient. -/
def send_message_all (st : CMState) (id_sender : String) (message_type : String)
    (send_counter : Int) (payload : String) : CMState :=
  st.known_robots.foldl
    (fun s robot_name => send_message s (Message.mk id_sender message_type send_counter payload robot_name))
    st

/-- The parse performed on one dequeued frame in `receive_message`:
`id_sender, message_type, send_counter, payload, recipient = incoming_msg.split(";")`
followed by `send_counter = int(send_counter)`. `none` where Python raises
`ValueError` (wrong field count or invalid integer). -/
def parseFrame (f : String) : Option Message :=
  match pySplitSemi f with
  | [a, b, c, d, e] => (parsePyInt c).map (fun n => Message.mk a b n d e)
  | _ => none

/-- The acceptance test of `receive_message`, with Python operator precedence:
`recipient == "" or recipient == self.robot.getName() and send_counter < self.max_send_counter`. -/
def accepts (name : String) (m : Message) : Bool :=
  m.recipient == "" || (m.recipient == name && decide (m.send_counter < max_send_counter))

/-- The `ValueError` message `"Invalid message format: '{}'".format(incoming_msg)`. -/
def invalidFormatMsg (f : String) : String :=
  "Invalid message format: " ++ (String.singleton (Char.ofNat 39) ++ (f ++ String.singleton (Char.ofNat 39)))

/-- The body of `for _ in range(self.receiver.getQueueLength())`: dequeue `n`
frames (`getString` + `nextPacket`), skip empty ones, parse the rest, append
accepted messages to `list_messages`; a parse failure stops the loop and
returns the raised `ValueError` text alongside the state already reached. -/
def drainLoop : CMState → Nat → CMState × Option String
  | st, 0 => (st, none)
  | st, n + 1 =>
    match st.queue with
    | [] => (st, none)
    | f :: rest =>
      if f == "" then drainLoop { st with queue := rest } n
      else
        match parseFrame f with
        | some m =>
          if accepts st.name m then
            drainLoop { st with queue := rest, list_messages := st.list_messages ++ [m] } n
          else drainLoop { st with queue := rest } n
        | none => ({ st with queue := rest }, some (invalidFormatMsg f))

/-- `receive_message`: `self.robot.step(self.time_step)` first, then the drain
loop over `getQueueLength()` read once. The `Option String` is the propagated
`ValueError`, `none` on normal return. -/
def receive_message (st : CMState) : CMState × Option String :=
  drainLoop { st with clock := st.clock + 1 } st.queue.length

/-- What one well-formed dequeued frame contributes to the inbox: nothing for an
empty or rejected frame, the parsed message when accepted. -/
def acceptFrame (name : String) (f : String) : Option Message :=
  if f == "" then none
  else
    match parseFrame f with
    | some m => if accepts name m then some m else none
    | none => none

/-- The `while self.receiver.getQueueLength() > 0: self.receiver.nextPacket()` loop. -/
def dropQueue : List String → List String
  | [] => []
  | _ :: rest => dropQueue rest

/-- `clear_messages`: `nextPacket` until the queue is empty (frames discarded
unread), then `list_messages.clear()`; no `step` call. -/
def clear_messages (st : CMState) : CMState :=
  { st with queue := dropQueue st.queue, list_messages := [] }

/-- `is_the_message_prioritary(msg, current_task)`. The rank function
`MESSAGE_TYPE_PRIORITY.priority` lives in `RobotUpInitializer.py`, outside the
visible source; modelled from the spec: "Ranking is defined entirely by the
external priority enumeration's ordering function", so it is a parameter
`priority : String → Int`. `str` on our string-typed fields is the identity. -/
def is_the_message_prioritary (priority : String → Int) (msg : Message)
    (current_task : String) : Bool :=
  decide (priority msg.message_type > priority current_task)

/-! ### Decimal formatting / parsing round trip -/

lemma digitChar_spec (d : Nat) (hd : d < 10) :
    (Char.ofNat (48 + d)).isDigit = true ∧ digitVal (Char.ofNat (48 + d)) = d := by
  interval_cases d <;> exact ⟨by decide, by decide⟩

lemma digit_ne_plus (c : Char) (h : c.isDigit = true) : ¬ c = '+' := by
  rintro rfl; exact absurd h (by decide)

lemma digit_ne_minus (c : Char) (h : c.isDigit = true) : ¬ c = '-' := by
  rintro rfl; exact absurd h (by decide)

lemma digit_ne_semi (c : Char) (h : c.isDigit = true) : ¬ c = ';' := by
  rintro rfl; exact absurd h (by decide)

lemma digit_not_ws (c : Char) (h : c.isDigit = true) : c.isWhitespace = false := by
  by_contra hw
  rw [Bool.not_eq_false] at hw
  simp only [Char.isWhitespace, Bool.or_eq_true, decide_eq_true_eq] at hw
  rcases hw with ((rfl | rfl) | rfl) | rfl <;> exact absurd h (by decide)

lemma natDigitsAux_digits :
    ∀ fuel n : Nat, ∀ c ∈ natDigitsAux fuel n, c.isDigit = true := by
  intro fuel
  induction fuel with
  | zero => intro n c hc; simp [natDigitsAux] at hc
  | succ fuel ih =>
    intro n c hc
    by_cases hn : n = 0
    · simp [natDigitsAux, hn] at hc
    · simp only [natDigitsAux, if_neg hn, List.mem_append] at hc
      rcases hc with h | h
      · exact ih _ c h
      · have hc' : c = Char.ofNat (48 + n % 10) := by simpa using h
        subst hc'
        exact (digitChar_spec _ (Nat.mod_lt _ (by norm_num))).1

lemma natToDec_digits (n : Nat) : ∀ c ∈ natToDec n, c.isDigit = true := by
  intro c hc
  unfold natToDec at hc
  by_cases h0 : n = 0
  · rw [if_pos h0] at hc
    have : c = Char.ofNat 48 := by simpa using hc
    subst this; decide
  · rw [if_neg h0] at hc
    exact natDigitsAux_digits _ _ c hc

lemma natToDec_ne_nil (n : Nat) : natToDec n ≠ [] := by
  unfold natToDec
  by_cases h0 : n = 0
  · simp [h0]
  · rw [if_neg h0]
    simp [natDigitsAux, h0]

lemma natToDec_no_semi (n : Nat) : ';' ∉ natToDec n := by
  intro h
  exact absurd (natToDec_digits n _ h) (by decide)

lemma foldl_decStep_append (acc : Nat) (l : List Char) (c : Char) :
    List.foldl decStep acc (l ++ [c]) = 10 * List.foldl decStep acc l + digitVal c := by
  simp [List.foldl_append, decStep]

lemma natDigitsAux_foldl :
    ∀ fuel n : Nat, n < 10 ^ fuel → ∀ acc : Nat,
      List.foldl decStep acc (natDigitsAux fuel n)
        = acc * 10 ^ (natDigitsAux fuel n).length + n := by
  intro fuel
  induction fuel with
  | zero =>
    intro n hn acc
    have h0 : n = 0 := Nat.lt_one_iff.mp (by simpa using hn)
    subst h0
    simp [natDigitsAux]
  | succ fuel ih =>
    intro n hn acc
    by_cases h0 : n = 0
    · subst h0; simp [natDigitsAux]
    · have hdiv : n / 10 < 10 ^ fuel := by
        rw [Nat.div_lt_iff_lt_mul (by norm_num : (0:ℕ) < 10)]
        calc n < 10 ^ (fuel + 1) := hn
          _ = 10 ^ fuel * 10 := by ring
      have hmod : n % 10 < 10 := Nat.mod_lt _ (by norm_num)
      simp only [natDigitsAux, if_neg h0]
      rw [foldl_decStep_append, ih _ hdiv acc, (digitChar_spec _ hmod).2,
        List.length_append, List.length_singleton, pow_succ, ← mul_assoc]
      have hdm : 10 * (n / 10) + n % 10 = n := Nat.div_add_mod n 10
      generalize acc * 10 ^ (natDigitsAux fuel (n / 10)).length = A
      omega

lemma natToDec_foldl (n : Nat) : (natToDec n).foldl decStep 0 = n := by
  unfold natToDec
  by_cases h0 : n = 0
  · subst h0; decide
  · rw [if_neg h0]
    have hlt : n < 10 ^ (n + 1) :=
      lt_of_lt_of_le (Nat.lt_pow_self (by norm_num) n)
        (Nat.pow_le_pow_right (by norm_num) (Nat.le_succ n))
    simpa using natDigitsAux_foldl (n + 1) n hlt 0

lemma parseDigits_of_digits (l : List Char) (hne : l ≠ [])
    (hd : ∀ c ∈ l, c.isDigit = true) :
    parseDigits l = some (l.foldl decStep 0) := by
  have hall : l.all Char.isDigit = true := List.all_eq_true.mpr (fun c hc => hd c hc)
  unfold parseDigits
  rw [if_neg hne, if_pos hall]

lemma dropWhile_eq_self_of {p : Char → Bool} {l : List Char}
    (h : ∀ c ∈ l, p c = false) : List.dropWhile p l = l := by
  cases l with
  | nil => rfl
  | cons a t =>
    rw [List.dropWhile_cons, if_neg]
    simp [h a (List.mem_cons_self a t)]

lemma stripChars_digits (l : List Char) (hd : ∀ c ∈ l, c.isDigit = true) :
    stripChars l = l := by
  have h1 : ∀ c ∈ l, Char.isWhitespace c = false := fun c hc => digit_not_ws c (hd c hc)
  unfold stripChars
  rw [dropWhile_eq_self_of h1,
    dropWhile_eq_self_of (fun c hc => h1 c (List.mem_reverse.mp hc)),
    List.reverse_reverse]

lemma parsePyInt_mk_digits (l : List Char) (hne : l ≠ [])
    (hd : ∀ c ∈ l, c.isDigit = true) :
    parsePyInt (String.mk l) = some ((l.foldl decStep 0 : Nat) : Int) := by
  obtain ⟨c, t, rfl⟩ := List.exists_cons_of_ne_nil hne
  have hc := hd c (List.mem_cons_self c t)
  unfold parsePyInt
  have hdata : (String.mk (c :: t)).data = c :: t := rfl
  rw [hdata, stripChars_digits _ hd]
  simp only [parsePyIntCore]
  rw [if_neg (digit_ne_plus c hc), if_neg (digit_ne_minus c hc),
    parseDigits_of_digits _ (by simp) hd]
  rfl

lemma parsePyInt_pyFormatInt (i : Int) (h : 0 ≤ i) :
    parsePyInt (pyFormatInt i) = some i := by
  unfold pyFormatInt
  rw [if_neg (not_lt.mpr h),
    parsePyInt_mk_digits _ (natToDec_ne_nil i.natAbs) (natToDec_digits i.natAbs),
    natToDec_foldl, Int.natAbs_of_nonneg h]

lemma pyFormatInt_no_semi (i : Int) (h : 0 ≤ i) : ';' ∉ (pyFormatInt i).data := by
  unfold pyFormatInt
  rw [if_neg (not_lt.mpr h)]
  exact natToDec_no_semi i.natAbs

/-! ### `split(";")` and the wire frame -/

lemma splitSemiList_no_semi (l : List Char) (h : ';' ∉ l) : splitSemiList l = [l] := by
  induction l with
  | nil => rfl
  | cons c cs ih =>
    have hc : ¬ c = ';' := fun hc => h (hc ▸ List.mem_cons_self c cs)
    have hcs : ';' ∉ cs := fun hm => h (List.mem_cons_of_mem c hm)
    simp only [splitSemiList, if_neg hc, ih hcs]

lemma splitSemiList_append (a : List Char) (r : List Char) (h : ';' ∉ a) :
    splitSemiList (a ++ ';' :: r) = a :: splitSemiList r := by
  induction a with
  | nil => simp [splitSemiList]
  | cons c a' ih =>
    have hc : ¬ c = ';' := fun hc => h (hc ▸ List.mem_cons_self c a')
    have ha' : ';' ∉ a' := fun hm => h (List.mem_cons_of_mem c hm)
    simp only [List.cons_append, splitSemiList, if_neg hc, List.append_eq, ih ha']

lemma splitSemiList_five (a b c d e : List Char)
    (ha : ';' ∉ a) (hb : ';' ∉ b) (hc : ';' ∉ c) (hd : ';' ∉ d) (he : ';' ∉ e) :
    splitSemiList (a ++ ';' :: (b ++ ';' :: (c ++ ';' :: (d ++ ';' :: e))))
      = [a, b, c, d, e] := by
  rw [splitSemiList_append _ _ ha, splitSemiList_append _ _ hb,
    splitSemiList_append _ _ hc, splitSemiList_append _ _ hd,
    splitSemiList_no_semi _ he]

lemma string_mk_data (s : String) : String.mk s.data = s := by
  cases s; rfl

lemma data_append (a b : String) : (a ++ b).data = a.data ++ b.data := by
  cases a; cases b; rfl

lemma encodeFrame_data (m : Message) :
    (encodeFrame m).data
      = m.id_sender.data ++ ';' :: (m.message_type.data ++ ';' ::
          ((pyFormatInt (m.send_counter + 1)).data ++ ';' ::
            (m.payload.data ++ ';' :: m.recipient.data))) := by
  unfold encodeFrame
  simp [data_append, List.append_assoc]

lemma pySplitSemi_encodeFrame (m : Message)
    (h1 : ';' ∉ m.id_sender.data) (h2 : ';' ∉ m.message_type.data)
    (h3 : ';' ∉ m.payload.data) (h4 : ';' ∉ m.recipient.data)
    (hc : 0 ≤ m.send_counter) :
    pySplitSemi (encodeFrame m)
      = [m.id_sender, m.message_type, pyFormatInt (m.send_counter + 1),
          m.payload, m.recipient] := by
  have hcnt : ';' ∉ (pyFormatInt (m.send_counter + 1)).data :=
    pyFormatInt_no_semi _ (by omega)
  unfold pySplitSemi
  rw [encodeFrame_data, splitSemiList_five _ _ _ _ _ h1 h2 hcnt h3 h4]
  simp [string_mk_data]

lemma parseFrame_of_split (f : String) (a b c d e : String)
    (h : pySplitSemi f = [a, b, c, d, e]) :
    parseFrame f = (parsePyInt c).map (fun n => Message.mk a b n d e) := by
  unfold parseFrame
  rw [h]

lemma parseFrame_encodeFrame (m : Message)
    (h1 : ';' ∉ m.id_sender.data) (h2 : ';' ∉ m.message_type.data)
    (h3 : ';' ∉ m.payload.data) (h4 : ';' ∉ m.recipient.data)
    (hc : 0 ≤ m.send_counter) :
    parseFrame (encodeFrame m) = some { m with send_counter := m.send_counter + 1 } := by
  rw [parseFrame_of_split _ _ _ _ _ _ (pySplitSemi_encodeFrame m h1 h2 h3 h4 hc),
    parsePyInt_pyFormatInt _ (by omega)]
  rfl

/-! ### The receive drain loop -/

lemma drainLoop_clock : ∀ (n : Nat) (st : CMState), ((drainLoop st n).1).clock = st.clock := by
  intro n
  induction n with
  | zero => intro st; rfl
  | succ n ih =>
    intro st
    rcases hq : st.queue with _ | ⟨f, rest⟩
    · simp [drainLoop, hq]
    · simp only [drainLoop, hq]
      by_cases hf : (f == "") = true
      · rw [if_pos hf]; exact ih _
      · rw [if_neg hf]
        rcases hp : parseFrame f with _ | m
        · simp
        · simp only
          by_cases hacc : accepts st.name m = true
          · rw [if_pos hacc]; exact ih _
          · rw [if_neg hacc]; exact ih _

lemma drainLoop_ok : ∀ (q : List String) (st : CMState), st.queue = q →
    (∀ f ∈ q, f = "" ∨ (parseFrame f).isSome = true) →
    drainLoop st q.length
      = ({ st with queue := [], list_messages := st.list_messages ++ q.filterMap (acceptFrame st.name) }, none) := by
  intro q
  induction q with
  | nil =>
    rintro ⟨nm, kr, em, qu, lm, ck⟩ hq h
    cases hq
    simp [drainLoop]
  | cons f q' ih =>
    rintro ⟨nm, kr, em, qu, lm, ck⟩ hq h
    cases hq
    have hq' : ∀ g ∈ q', g = "" ∨ (parseFrame g).isSome = true :=
      fun g hg => h g (List.mem_cons_of_mem f hg)
    by_cases hf : f = ""
    · subst hf
      have haf : acceptFrame nm "" = none := by simp [acceptFrame]
      simp only [List.length_cons, drainLoop]
      rw [if_pos (by simp)]
      rw [ih _ rfl hq']
      simp [List.filterMap_cons, haf]
    · have hfb : (f == "") = false := by simp [hf]
      rcases h f (List.mem_cons_self f q') with hf' | hs
      · exact absurd hf' hf
      · obtain ⟨m, hm⟩ := Option.isSome_iff_exists.mp hs
        simp only [List.length_cons, drainLoop, hfb, Bool.false_eq_true, if_false, hm]
        by_cases hacc : accepts nm m = true
        · have haf : acceptFrame nm f = some m := by simp [acceptFrame, hfb, hm, hacc]
          rw [if_pos hacc]
          rw [ih _ rfl hq']
          simp [List.filterMap_cons, haf, List.append_assoc]
        · have haf : acceptFrame nm f = none := by simp [acceptFrame, hfb, hm, hacc]
          rw [if_neg hacc]
          rw [ih _ rfl hq']
          simp [List.filterMap_cons, haf]

lemma drainLoop_err : ∀ (xs : List String) (st : CMState) (bad : String) (ys : List String),
    st.queue = xs ++ bad :: ys →
    (∀ f ∈ xs, f = "" ∨ (parseFrame f).isSome = true) →
    bad ≠ "" → parseFrame bad = none →
    drainLoop st (xs ++ bad :: ys).length
      = ({ st with queue := ys, list_messages := st.list_messages ++ xs.filterMap (acceptFrame st.name) },
          some (invalidFormatMsg bad)) := by
  intro xs
  induction xs with
  | nil =>
    rintro ⟨nm, kr, em, qu, lm, ck⟩ bad ys hq hxs hne hbad
    cases hq
    have hfb : (bad == "") = false := by simp [hne]
    simp only [List.nil_append, List.length_cons, drainLoop, hfb, Bool.false_eq_true,
      if_false, hbad]
    simp
  | cons f xs' ih =>
    rintro ⟨nm, kr, em, qu, lm, ck⟩ bad ys hq hxs hne hbad
    cases hq
    have hxs' : ∀ g ∈ xs', g = "" ∨ (parseFrame g).isSome = true :=
      fun g hg => hxs g (List.mem_cons_of_mem f hg)
    by_cases hf : f = ""
    · subst hf
      have haf : acceptFrame nm "" = none := by simp [acceptFrame]
      simp only [List.cons_append, List.length_cons, drainLoop, List.append_eq]
      rw [if_pos (by simp)]
      rw [ih _ bad ys rfl hxs' hne hbad]
      simp [List.filterMap_cons, haf]
    · have hfb : (f == "") = false := by simp [hf]
      rcases hxs f (List.mem_cons_self f xs') with hf' | hs
      · exact absurd hf' hf
      · obtain ⟨m, hm⟩ := Option.isSome_iff_exists.mp hs
        simp only [List.cons_append, List.length_cons, drainLoop, List.append_eq, hfb,
          Bool.false_eq_true, if_false, hm]
        by_cases hacc : accepts nm m = true
        · have haf : acceptFrame nm f = some m := by simp [acceptFrame, hfb, hm, hacc]
          rw [if_pos hacc]
          rw [ih _ bad ys rfl hxs' hne hbad]
          simp [List.filterMap_cons, haf, List.append_assoc]
        · have haf : acceptFrame nm f = none := by simp [acceptFrame, hfb, hm, hacc]
          rw [if_neg hacc]
          rw [ih _ bad ys rfl hxs' hne hbad]
          simp [List.filterMap_cons, haf]

lemma dropQueue_eq_nil : ∀ l : List String, dropQueue l = [] := by
  intro l
  induction l with
  | nil => rfl
  | cons f rest ih => simpa [dropQueue] using ih

lemma foldl_send_emitted : ∀ (rs : List String) (st : CMState) (mk : String → Message),
    (rs.foldl (fun s r => send_message s (mk r)) st).emitted
      = st.emitted ++ rs.map (fun r => encodeFrame (mk r)) := by
  intro rs
  induction rs with
  | nil => intro st mk; simp
  | cons r rs' ih =>
    intro st mk
    simp only [List.foldl_cons, List.map_cons, ih (send_message st (mk r)) mk]
    simp [send_message, List.append_assoc]

/-! ### Claim theorems -/

/-- C1: for every parsed incoming frame, `receive_message` appends the message
to the inbox if and only if `recipient == ""` (regardless of its relay count)
or `recipient` equals the receiving robot's own name and the relay count is
strictly below `max_send_counter = 5`. -/
theorem receive_message_acceptance_rule (st : CMState) (f : String) (m : Message)
    (hq : st.queue = [f]) (hf : f ≠ "") (hp : parseFrame f = some m) :
    ((receive_message st).1.list_messages
        = if accepts st.name m then st.list_messages ++ [m] else st.list_messages)
    ∧ (accepts st.name m = true
        ↔ (m.recipient = "" ∨ (m.recipient = st.name ∧ m.send_counter < 5))) := by
  have hwf : ∀ g ∈ [f], g = "" ∨ (parseFrame g).isSome = true := by
    intro g hg
    rw [List.mem_singleton] at hg
    subst hg
    right
    simp [hp]
  constructor
  · show (drainLoop { st with clock := st.clock + 1 } st.queue.length).1.list_messages = _
    rw [hq]
    have h1 := drainLoop_ok [f] { st with queue := [f], clock := st.clock + 1 } rfl hwf
    rw [h1]
    dsimp only
    have hfb : (f == "") = false := by simp [hf]
    have haf : acceptFrame st.name f = if accepts st.name m then some m else none := by
      simp [acceptFrame, hfb, hp]
    by_cases hacc : accepts st.name m = true
    · simp [haf, hacc]
    · simp [haf, hacc]
  · simp [accepts, max_send_counter, Bool.or_eq_true, Bool.and_eq_true, beq_iff_eq,
      decide_eq_true_eq]

/-- Witness for C1: a broadcast frame with relay count 1000 is accepted, a frame
addressed to self with relay count 5 is rejected, one with relay count 4 is
accepted. -/
theorem receive_message_acceptance_rule_witness :
    (receive_message (CMState.mk "R" [] [] ["s;t;1000;p;"] [] 0)).1.list_messages
        = [Message.mk "s" "t" 1000 "p" ""]
    ∧ (receive_message (CMState.mk "R" [] [] ["s;t;5;p;R"] [] 0)).1.list_messages = []
    ∧ (receive_message (CMState.mk "R" [] [] ["s;t;4;p;R"] [] 0)).1.list_messages
        = [Message.mk "s" "t" 4 "p" "R"] := by
  refine ⟨?_, ?_, ?_⟩
  · exact ((receive_message_acceptance_rule (CMState.mk "R" [] [] ["s;t;1000;p;"] [] 0)
      "s;t;1000;p;" (Message.mk "s" "t" 1000 "p" "") rfl (by decide) (by decide)).1).trans
      (by decide)
  · exact ((receive_message_acceptance_rule (CMState.mk "R" [] [] ["s;t;5;p;R"] [] 0)
      "s;t;5;p;R" (Message.mk "s" "t" 5 "p" "R") rfl (by decide) (by decide)).1).trans
      (by decide)
  · exact ((receive_message_acceptance_rule (CMState.mk "R" [] [] ["s;t;4;p;R"] [] 0)
      "s;t;4;p;R" (Message.mk "s" "t" 4 "p" "R") rfl (by decide) (by decide)).1).trans
      (by decide)

/-- C2: a dequeued non-empty frame that fails to parse (wrong field count or
invalid relay-count integer) makes `receive_message` fail with the
`ValueError` text naming the raw frame, and no frame after it in the batch
contributes to the inbox. -/
theorem receive_message_malformed_error (st : CMState) (xs : List String) (bad : String)
    (ys : List String) (hq : st.queue = xs ++ bad :: ys)
    (hxs : ∀ f ∈ xs, f = "" ∨ (parseFrame f).isSome = true)
    (hne : bad ≠ "") (hbad : parseFrame bad = none) :
    (receive_message st).2 = some (invalidFormatMsg bad)
    ∧ (∃ u v : String, invalidFormatMsg bad = u ++ (bad ++ v))
    ∧ (receive_message st).1.list_messages
        = st.list_messages ++ xs.filterMap (acceptFrame st.name) := by
  have h2 : receive_message st = ({ st with clock := st.clock + 1, queue := ys, list_messages := st.list_messages ++ xs.filterMap (acceptFrame st.name) }, some (invalidFormatMsg bad)) := by
    show drainLoop { st with clock := st.clock + 1 } st.queue.length = _
    rw [hq]
    have h1 := drainLoop_err xs { st with queue := xs ++ bad :: ys, clock := st.clock + 1 } bad ys rfl hxs hne hbad
    exact h1
  refine ⟨by rw [h2], ?_, by rw [h2]⟩
  refine ⟨"Invalid message format: " ++ String.singleton (Char.ofNat 39),
    String.singleton (Char.ofNat 39), ?_⟩
  apply String.ext
  simp [invalidFormatMsg, data_append, List.append_assoc]

/-- Witness for C2: the frames `"a;b;c"` (3 fields) and `"a;b;notanumber;d;e"`
(bad integer) each abort `receive_message` with an error naming the frame. -/
theorem receive_message_malformed_error_witness :
    ((receive_message (CMState.mk "R" [] [] ["a;b;c"] [] 0)).2
        = some (invalidFormatMsg "a;b;c")
      ∧ (receive_message (CMState.mk "R" [] [] ["a;b;c"] [] 0)).1.list_messages = [])
    ∧ (receive_message (CMState.mk "R" [] [] ["a;b;notanumber;d;e"] [] 0)).2
        = some (invalidFormatMsg "a;b;notanumber;d;e") := by
  refine ⟨⟨?_, ?_⟩, ?_⟩
  · exact (receive_message_malformed_error (CMState.mk "R" [] [] ["a;b;c"] [] 0)
      [] "a;b;c" [] rfl (by simp) (by decide) (by decide)).1
  · exact ((receive_message_malformed_error (CMState.mk "R" [] [] ["a;b;c"] [] 0)
      [] "a;b;c" [] rfl (by simp) (by decide) (by decide)).2.2).trans (by decide)
  · exact (receive_message_malformed_error (CMState.mk "R" [] [] ["a;b;notanumber;d;e"] [] 0)
      [] "a;b;notanumber;d;e" [] rfl (by simp) (by decide) (by decide)).1

/-- C3: for a message whose string fields are `;`-free and whose relay count is
a non-negative integer `c`, parsing the frame emitted by `send_message` yields
a message with relay count `c + 1` and all other fields unchanged. -/
theorem encode_decode_roundtrip (st : CMState) (m : Message)
    (h1 : ';' ∉ m.id_sender.data) (h2 : ';' ∉ m.message_type.data)
    (h3 : ';' ∉ m.payload.data) (h4 : ';' ∉ m.recipient.data)
    (hc : 0 ≤ m.send_counter) :
    (send_message st m).emitted = st.emitted ++ [encodeFrame m]
    ∧ parseFrame (encodeFrame m) = some { m with send_counter := m.send_counter + 1 } :=
  ⟨rfl, parseFrame_encodeFrame m h1 h2 h3 h4 hc⟩

/-- Witness for C3: round trip at a concrete message. -/
theorem encode_decode_roundtrip_witness :
    (send_message (CMState.mk "R" [] [] [] [] 0) (Message.mk "a" "T" 3 "p" "r")).emitted
        = [encodeFrame (Message.mk "a" "T" 3 "p" "r")]
    ∧ parseFrame (encodeFrame (Message.mk "a" "T" 3 "p" "r"))
        = some (Message.mk "a" "T" 4 "p" "r") := by
  have h := encode_decode_roundtrip (CMState.mk "R" [] [] [] [] 0)
    (Message.mk "a" "T" 3 "p" "r") (by decide) (by decide) (by decide) (by decide)
    (by decide)
  exact ⟨h.1.trans (by decide), h.2.trans (by decide)⟩

/-- C4: `send_message` emits a frame whose counter field is the message's
relay count plus one, changes only the emitted log and the clock, and never
mutates the caller's message: a second send of the same message emits the
identical frame (same counter again, not incremented twice). -/
theorem send_message_counter_no_mutation (st : CMState) (m : Message)
    (h1 : ';' ∉ m.id_sender.data) (h2 : ';' ∉ m.message_type.data)
    (h3 : ';' ∉ m.payload.data) (h4 : ';' ∉ m.recipient.data)
    (hc : 0 ≤ m.send_counter) :
    send_message (send_message st m) m
      = { st with emitted := st.emitted ++ [encodeFrame m, encodeFrame m], clock := st.clock + 2 }
    ∧ pySplitSemi (encodeFrame m)
        = [m.id_sender, m.message_type, pyFormatInt (m.send_counter + 1),
            m.payload, m.recipient]
    ∧ parsePyInt (pyFormatInt (m.send_counter + 1)) = some (m.send_counter + 1) := by
  refine ⟨?_, pySplitSemi_encodeFrame m h1 h2 h3 h4 hc, parsePyInt_pyFormatInt _ (by omega)⟩
  simp [send_message, List.append_assoc]

/-- Witness for C4: double send at a concrete message and state. -/
theorem send_message_counter_no_mutation_witness :
    send_message (send_message (CMState.mk "R" [] [] [] [] 0) (Message.mk "a" "T" 3 "p" "r"))
        (Message.mk "a" "T" 3 "p" "r")
      = CMState.mk "R" [] ["a;T;4;p;r", "a;T;4;p;r"] [] [] 2
    ∧ parsePyInt (pyFormatInt 4) = some 4 := by
  have h := send_message_counter_no_mutation (CMState.mk "R" [] [] [] [] 0)
    (Message.mk "a" "T" 3 "p" "r") (by decide) (by decide) (by decide) (by decide)
    (by decide)
  exact ⟨h.1.trans (by decide), h.2.2⟩

/-- C5: `send_message_all` emits exactly one frame per known robot, in list
order, each frame encoding a message with that robot as recipient and the
shared sender, type, counter and payload. -/
theorem send_message_all_fanout (st : CMState) (id_sender message_type : String)
    (send_counter : Int) (payload : String) :
    (send_message_all st id_sender message_type send_counter payload).emitted
      = st.emitted ++ st.known_robots.map
          (fun r => encodeFrame (Message.mk id_sender message_type send_counter payload r))
    ∧ (send_message_all st id_sender message_type send_counter payload).emitted.length
        = st.emitted.length + st.known_robots.length := by
  have h1 : (send_message_all st id_sender message_type send_counter payload).emitted
      = st.emitted ++ st.known_robots.map
          (fun r => encodeFrame (Message.mk id_sender message_type send_counter payload r)) :=
    foldl_send_emitted st.known_robots st
      (fun r => Message.mk id_sender message_type send_counter payload r)
  refine ⟨h1, ?_⟩
  rw [h1]
  simp

/-- C6: after `clear_messages` the inbox is empty, the receiver queue is empty,
and the next `receive_message` call delivers nothing (it only advances the
clock and returns normally). -/
theorem clear_messages_semantics (st : CMState) :
    (clear_messages st).list_messages = [] ∧ (clear_messages st).queue = []
    ∧ receive_message (clear_messages st)
        = ({ clear_messages st with clock := st.clock + 1 }, none) := by
  have hq : (clear_messages st).queue = [] := dropQueue_eq_nil st.queue
  refine ⟨rfl, hq, ?_⟩
  show drainLoop { clear_messages st with clock := (clear_messages st).clock + 1 } (clear_messages st).queue.length = _
  rw [hq]
  rfl

/-- C7: the priority comparator is a pure function of its arguments and returns
true iff the rank of the message's type strictly exceeds the rank of the
current task; equal ranks give false. -/
theorem is_prioritary_strict (priority : String → Int) (msg : Message)
    (current_task : String) :
    (is_the_message_prioritary priority msg current_task = true
        ↔ priority msg.message_type > priority current_task)
    ∧ (priority msg.message_type = priority current_task
        → is_the_message_prioritary priority msg current_task = false) := by
  constructor
  · simp [is_the_message_prioritary]
  · intro h
    simp [is_the_message_prioritary, h]

/-- Witness for C7: with length-of-string as rank, a higher-rank message beats
a lower-rank task, and equal ranks give false. -/
theorem is_prioritary_strict_witness :
    is_the_message_prioritary (fun s => (s.length : Int))
        (Message.mk "a" "xxx" 0 "" "") "yy" = true
    ∧ is_the_message_prioritary (fun s => (s.length : Int))
        (Message.mk "a" "xx" 0 "" "") "yy" = false :=
  ⟨(is_prioritary_strict (fun s => (s.length : Int))
      (Message.mk "a" "xxx" 0 "" "") "yy").1.mpr (by decide),
    (is_prioritary_strict (fun s => (s.length : Int))
      (Message.mk "a" "xx" 0 "" "") "yy").2 (by decide)⟩

/-- C8: `receive_message` advances the clock by one tick, then processes the
frames queued at the start of the call, in order, draining all of them; empty
frames are dequeued but contribute nothing, and processing continues past
them. -/
theorem receive_message_batch_drain (st : CMState)
    (h : ∀ f ∈ st.queue, f = "" ∨ (parseFrame f).isSome = true) :
    receive_message st
      = ({ st with clock := st.clock + 1, queue := [], list_messages := st.list_messages ++ st.queue.filterMap (acceptFrame st.name) }, none) :=
  drainLoop_ok st.queue { st with clock := st.clock + 1 } rfl h

/-- Witness for C8: a batch with an empty frame in the middle is fully drained,
the empty frame skipped silently and the later frame still delivered. -/
theorem receive_message_batch_drain_witness :
    receive_message (CMState.mk "R" [] [] ["s;t;1;p;", "", "x;y;4;q;R"] [] 0)
      = (CMState.mk "R" [] [] []
          [Message.mk "s" "t" 1 "p" "", Message.mk "x" "y" 4 "q" "R"] 1, none) :=
  (receive_message_batch_drain (CMState.mk "R" [] [] ["s;t;1;p;", "", "x;y;4;q;R"] [] 0)
    (by decide)).trans (by decide)

/-- C9: a malformed frame aborts `receive_message` without rollback: messages
accepted earlier in the batch stay in the inbox, the offending frame has
already been dequeued (the remaining queue is exactly the frames after it),
and the error carries the raised message. -/
theorem receive_message_error_no_rollback (st : CMState) (xs : List String) (bad : String)
    (ys : List String) (hq : st.queue = xs ++ bad :: ys)
    (hxs : ∀ f ∈ xs, f = "" ∨ (parseFrame f).isSome = true)
    (hne : bad ≠ "") (hbad : parseFrame bad = none) :
    receive_message st
      = ({ st with clock := st.clock + 1, queue := ys, list_messages := st.list_messages ++ xs.filterMap (acceptFrame st.name) }, some (invalidFormatMsg bad)) := by
  show drainLoop { st with clock := st.clock + 1 } st.queue.length = _
  rw [hq]
  exact drainLoop_err xs { st with queue := xs ++ bad :: ys, clock := st.clock + 1 } bad ys rfl hxs hne hbad

/-- Witness for C9: an accepted broadcast before the bad frame stays in the
inbox, the bad frame is gone from the queue, the frame after it is still
queued. -/
theorem receive_message_error_no_rollback_witness :
    receive_message (CMState.mk "R" [] [] ["s;t;1;p;", "a;b;c", "x;y;4;q;R"] [] 0)
      = (CMState.mk "R" [] [] ["x;y;4;q;R"] [Message.mk "s" "t" 1 "p" ""] 1,
          some (invalidFormatMsg "a;b;c")) :=
  (receive_message_error_no_rollback
    (CMState.mk "R" [] [] ["s;t;1;p;", "a;b;c", "x;y;4;q;R"] [] 0)
    ["s;t;1;p;"] "a;b;c" ["x;y;4;q;R"] rfl (by decide) (by decide) (by decide)).trans
    (by decide)

/-- C10: `clear_messages` never advances the host clock, while `send_message`
and `receive_message` (normal return or error alike) each advance it by
exactly one tick. -/
theorem clock_tick_effects (st : CMState) (msg : Message) :
    (clear_messages st).clock = st.clock
    ∧ (send_message st msg).clock = st.clock + 1
    ∧ (receive_message st).1.clock = st.clock + 1 := by
  refine ⟨rfl, rfl, ?_⟩
  show ((drainLoop { st with clock := st.clock + 1 } st.queue.length).1).clock = st.clock + 1
  rw [drainLoop_clock]

end CommunicationManager
